import Mathlib

/-!
A shallow embedding of diesel's `src/persistable.rs`: the `Insertable` record
mapping contract, the `InsertableColumns` column-set contract, and the bulk
value renderer `InsertValues` with its `QueryFragment::to_sql` loop.

External collaborators (`QueryBuilder`, `Column`, `Table`, the `Expression`
sql-type tagging) are modelled from the spec at their interface boundary, as
the spec prescribes.  Rust's type-level `SqlType` tags become value-level tags
of an arbitrary type `sigma`; the `&mut QueryBuilder` plus `BuildQueryResult`
calling convention of `to_sql` becomes a function returning the updated
accumulator paired with `none` (for `Ok(())`) or `some e` (for `Err(e)`).
-/

namespace Persistable

/-- Modelled from the spec: table identity, "identity of a database relation",
used only as a tag.  (The `query_source::Table` trait is outside `src/`.) -/
structure Table where
  name : String
deriving DecidableEq

/-- Modelled from the spec: the external text accumulator (`QueryBuilder`).
The spec treats it purely as a text-accumulating renderer that `to_sql`
writes SQL text into; `push_sql` appends text.  (The `query_builder`
module is outside `src/`.) -/
structure QueryBuilder where
  sql : String
deriving DecidableEq

/-- `QueryBuilder::push_sql` appends SQL text to the accumulator. -/
def QueryBuilder.push_sql (out : QueryBuilder) (s : String) : QueryBuilder :=
  { sql := out.sql ++ s }

/-- A value-expression: the `Expression` sql-type tag together with the
`QueryFragment` rendering function.  `to_sql(&self, out: &mut QueryBuilder)
-> BuildQueryResult` is embedded as a function from the accumulator to the
updated accumulator paired with an optional error `e : epsilon`. -/
structure ValueExpr (σ ε : Type) where
  sqlType : σ
  to_sql : QueryBuilder → QueryBuilder × Option ε

/-- The `InsertableColumns<T>` contract, i.e. a column-set: its fused
`SqlType` and the result of `names(&self)`.  (An instance of this structure
plays the role of a value of a type implementing the Rust trait.) -/
structure InsertableColumns (σ : Type) where
  SqlType : σ
  names : String

/-- The `Insertable<T>` contract for a record type `U`.  `columns` merges the
associated type `Columns` with the nullary `columns()` method; `values`
embeds `fn values(self) -> Self::Values`.  The source's trait bound
`type Values: Expression<SqlType = <Self::Columns as
InsertableColumns<T>>::SqlType>` (persistable.rs line 15) is a law every
implementation must satisfy, so it is the field `values_sql_type`. -/
structure Insertable (σ ε U : Type) where
  columns : InsertableColumns σ
  values : U → ValueExpr σ ε
  values_sql_type : ∀ u, (values u).sqlType = columns.SqlType

/-- The bulk value-expression `InsertValues<'a, T, U>`: it wraps the borrowed
slice of records (the `PhantomData<T>` marker has no runtime content and is
dropped).  The borrowed slice `&'a [U]` is embedded as a `List U`. -/
structure InsertValues (U : Type) where
  values : List U

/-- The loop body of `QueryFragment::to_sql` for `InsertValues`
(persistable.rs lines 84-91): iterate `self.values` with `enumerate`, push
the row separator before every element whose index is nonzero, then render
`record.values()` and propagate its failure via `try!`.  The instance
`inst` supplies the `&'a U: Insertable<T>` bound used for `record.values()`. -/
def InsertValues.to_sql_from (inst : Insertable σ ε U) :
    List U → Nat → QueryBuilder → QueryBuilder × Option ε
  | [], _, out => (out, none)
  | record :: rest, i, out =>
    let out1 := if i == 0 then out else out.push_sql ", "
    match (inst.values record).to_sql out1 with
    | (out2, none) => InsertValues.to_sql_from inst rest (i + 1) out2
    | (out2, some e) => (out2, some e)

/-- `QueryFragment::to_sql` for `InsertValues`: the enumerate loop starting
at index 0, ending with `Ok(())` if every element rendered. -/
def InsertValues.to_sql (inst : Insertable σ ε U) (iv : InsertValues U)
    (out : QueryBuilder) : QueryBuilder × Option ε :=
  InsertValues.to_sql_from inst iv.values 0 out

/-- The `Expression` and `QueryFragment` impls for `InsertValues` packaged as
a `ValueExpr`: its sql type is the element type's fused column-set type
(persistable.rs lines 72-77 declare no tag of its own, only
`type SqlType = <<&'a U as Insertable<T>>::Columns as
InsertableColumns<T>>::SqlType`), and it renders with the loop above. -/
def InsertValues.expr (inst : Insertable σ ε U) (iv : InsertValues U) :
    ValueExpr σ ε :=
  { sqlType := inst.columns.SqlType
    to_sql := InsertValues.to_sql inst iv }

/-- `impl<'a, T, U> Insertable<T> for &'a [U]` (persistable.rs lines 28-45):
`columns()` delegates to the element's `columns()`, `values(self)` wraps the
borrowed slice in an `InsertValues` without copying. -/
def sliceInsertable (inst : Insertable σ ε U) : Insertable σ ε (List U) where
  columns := inst.columns
  values := fun s => InsertValues.expr inst { values := s }
  values_sql_type := fun _ => rfl

/-- Model of Rust's owned `Vec<U>`: a contiguous owned sequence container;
`&*self` dereferences it to the slice of its elements. -/
structure Vec (U : Type) where
  data : List U

/-- `impl<'a, T, U> Insertable<T> for &'a Vec<U>` (persistable.rs lines
47-64): identical to the slice impl except that `values` dereferences the
vector to its element slice (`values: &*self`). -/
def vecInsertable (inst : Insertable σ ε U) : Insertable σ ε (Vec U) where
  columns := inst.columns
  values := fun v => InsertValues.expr inst { values := v.data }
  values_sql_type := fun _ => rfl

/-- Modelled from the spec: a column identity, "identity of one relation
attribute, tagged with the table it belongs to and a SQL type"; as an
`Expression` its sql type is its declared one (the `query_source::Column`
trait and the column `Expression` impls are outside `src/`). -/
structure Column (σ : Type) where
  table : Table
  name : String
  sqlType : σ

/-- `impl<C: Column<Table=T>, T: Table> InsertableColumns<T> for C`
(persistable.rs lines 94-99): a single column is a column-set whose
`SqlType` is its own `Expression` sql type and whose `names()` is
`Self::name().to_string()`. -/
def Column.insertableColumns (c : Column σ) : InsertableColumns σ :=
  { SqlType := c.sqlType, names := c.name }

/-- Concatenation of a list of strings, used to state what the loop emits. -/
def joinAll : List String → String
  | [] => ""
  | s :: rest => s ++ joinAll rest

/-- The separator discipline the spec describes: the row separator `", "` is
placed before every element except the first, with no leading or trailing
separator; the empty list gives the empty string. -/
def sepJoin : List String → String
  | [] => ""
  | s :: rest => s ++ joinAll (rest.map (fun t => ", " ++ t))

/-- A rendering function behaves as a plain appender: on every accumulator it
appends exactly the text `s` and succeeds.  This is how a well-behaved
element value-expression interacts with the external accumulator. -/
def Appends (f : QueryBuilder → QueryBuilder × Option ε) (s : String) : Prop :=
  ∀ out, f out = (out.push_sql s, none)

/-- A rendering function that appends the text `w` and then reports the
failure `e` (the external accumulator reporting a write error). -/
def AppendsFail (f : QueryBuilder → QueryBuilder × Option ε) (w : String)
    (e : ε) : Prop :=
  ∀ out, f out = (out.push_sql w, some e)

/-- A concrete record mapping used to instantiate theorems: records are
naturals, `0` renders as the text `X` and then fails with `boom`, every
other `n` renders as its decimal text. -/
def demoValues (n : Nat) : ValueExpr String String :=
  if n = 0 then
    { sqlType := "demo", to_sql := fun out => (out.push_sql "X", some "boom") }
  else
    { sqlType := "demo", to_sql := fun out => (out.push_sql (toString n), none) }

/-- The demo mapping packaged as an `Insertable` instance. -/
def demoInsertable : Insertable String String Nat where
  columns := { SqlType := "demo", names := "c" }
  values := demoValues
  values_sql_type := by
    intro n
    unfold demoValues
    split <;> rfl

lemma push_sql_push_sql (out : QueryBuilder) (a b : String) :
    (out.push_sql a).push_sql b = out.push_sql (a ++ b) := by
  simp [QueryBuilder.push_sql, String.append_assoc]

lemma push_sql_empty (out : QueryBuilder) : out.push_sql "" = out := by
  simp [QueryBuilder.push_sql]

lemma to_sql_from_pos (inst : Insertable σ ε U) (render : U → String) :
    ∀ l : List U, (∀ r ∈ l, Appends (inst.values r).to_sql (render r)) →
    ∀ i : Nat, i ≠ 0 → ∀ out : QueryBuilder,
      InsertValues.to_sql_from inst l i out =
        (out.push_sql (joinAll (l.map fun r => ", " ++ render r)), none) := by
  intro l
  induction l with
  | nil =>
    intro _ i hi out
    simp [InsertValues.to_sql_from, joinAll, push_sql_empty]
  | cons r rs ih =>
    intro h i hi out
    have hr := h r (List.mem_cons_self r rs)
    have hrs : ∀ x ∈ rs, Appends (inst.values x).to_sql (render x) :=
      fun x hx => h x (List.mem_cons_of_mem r hx)
    have hi' : (i == 0) = false := by
      simpa using hi
    simp only [InsertValues.to_sql_from, hi', Bool.false_eq_true, if_false,
      hr (out.push_sql ", ")]
    rw [ih hrs (i + 1) (Nat.succ_ne_zero i) ((out.push_sql ", ").push_sql (render r))]
    simp [push_sql_push_sql, joinAll, String.append_assoc]

lemma to_sql_from_zero (inst : Insertable σ ε U) (render : U → String)
    (l : List U) (h : ∀ r ∈ l, Appends (inst.values r).to_sql (render r))
    (out : QueryBuilder) :
    InsertValues.to_sql_from inst l 0 out =
      (out.push_sql (sepJoin (l.map render)), none) := by
  cases l with
  | nil =>
    simp [InsertValues.to_sql_from, sepJoin, push_sql_empty]
  | cons r rs =>
    have hr := h r (List.mem_cons_self r rs)
    have hrs : ∀ x ∈ rs, Appends (inst.values x).to_sql (render x) :=
      fun x hx => h x (List.mem_cons_of_mem r hx)
    simp only [InsertValues.to_sql_from, beq_self_eq_true, if_true, hr out]
    rw [to_sql_from_pos inst render rs hrs 1 one_ne_zero (out.push_sql (render r))]
    simp [push_sql_push_sql, sepJoin, List.map_map]
    rfl

lemma to_sql_from_fail (inst : Insertable σ ε U) (bad : U) (e : ε)
    (hbad : ∀ out, ((inst.values bad).to_sql out).2 = some e) :
    ∀ pre : List U, (∀ r ∈ pre, ∃ s, Appends (inst.values r).to_sql s) →
    ∀ (post : List U) (i : Nat) (out : QueryBuilder),
      InsertValues.to_sql_from inst (pre ++ bad :: post) i out =
        InsertValues.to_sql_from inst (pre ++ [bad]) i out ∧
      (InsertValues.to_sql_from inst (pre ++ bad :: post) i out).2 = some e := by
  intro pre
  induction pre with
  | nil =>
    intro _ post i out
    simp only [List.nil_append]
    rcases hres : (inst.values bad).to_sql
      (if i == 0 then out else out.push_sql ", ") with ⟨q, o⟩
    have ho : o = some e := by
      have hb := hbad (if i == 0 then out else out.push_sql ", ")
      rw [hres] at hb
      exact hb
    subst ho
    constructor
    · simp only [InsertValues.to_sql_from]
      rw [hres]
    · simp only [InsertValues.to_sql_from]
      rw [hres]
  | cons r rs ih =>
    intro h post i out
    obtain ⟨s, hs⟩ := h r (List.mem_cons_self r rs)
    have hrs : ∀ x ∈ rs, ∃ t, Appends (inst.values x).to_sql t :=
      fun x hx => h x (List.mem_cons_of_mem r hx)
    simp only [List.cons_append, InsertValues.to_sql_from,
      hs (if i == 0 then out else out.push_sql ", ")]
    exact ih hrs post (i + 1)
      ((if i == 0 then out else out.push_sql ", ").push_sql s)

lemma to_sql_from_fail_pos (inst : Insertable σ ε U) (render : U → String)
    (bad : U) (w : String) (e : ε)
    (hbad : AppendsFail (inst.values bad).to_sql w e) :
    ∀ pre : List U, (∀ r ∈ pre, Appends (inst.values r).to_sql (render r)) →
    ∀ (post : List U) (i : Nat), i ≠ 0 → ∀ out : QueryBuilder,
      InsertValues.to_sql_from inst (pre ++ bad :: post) i out =
        (out.push_sql (joinAll ((pre.map render ++ [w]).map fun t => ", " ++ t)),
          some e) := by
  intro pre
  induction pre with
  | nil =>
    intro _ post i hi out
    have hi' : (i == 0) = false := by
      simpa using hi
    simp only [List.nil_append, InsertValues.to_sql_from, hi',
      Bool.false_eq_true, if_false, hbad (out.push_sql ", ")]
    simp [push_sql_push_sql, joinAll]
  | cons r rs ih =>
    intro h post i hi out
    have hr := h r (List.mem_cons_self r rs)
    have hrs : ∀ x ∈ rs, Appends (inst.values x).to_sql (render x) :=
      fun x hx => h x (List.mem_cons_of_mem r hx)
    have hi' : (i == 0) = false := by
      simpa using hi
    simp only [List.cons_append, InsertValues.to_sql_from, hi',
      Bool.false_eq_true, if_false, hr (out.push_sql ", ")]
    simp only [List.append_eq]
    rw [ih hrs post (i + 1) (Nat.succ_ne_zero i)
      ((out.push_sql ", ").push_sql (render r))]
    simp [push_sql_push_sql, joinAll, String.append_assoc]

lemma to_sql_from_fail_zero (inst : Insertable σ ε U) (render : U → String)
    (bad : U) (w : String) (e : ε)
    (hbad : AppendsFail (inst.values bad).to_sql w e)
    (pre : List U) (hpre : ∀ r ∈ pre, Appends (inst.values r).to_sql (render r))
    (post : List U) (out : QueryBuilder) :
    InsertValues.to_sql_from inst (pre ++ bad :: post) 0 out =
      (out.push_sql (sepJoin (pre.map render ++ [w])), some e) := by
  cases pre with
  | nil =>
    simp only [List.nil_append, InsertValues.to_sql_from, beq_self_eq_true,
      if_true, hbad out]
    simp [sepJoin, joinAll]
  | cons r rs =>
    have hr := hpre r (List.mem_cons_self r rs)
    have hrs : ∀ x ∈ rs, Appends (inst.values x).to_sql (render x) :=
      fun x hx => hpre x (List.mem_cons_of_mem r hx)
    simp only [List.cons_append, InsertValues.to_sql_from, beq_self_eq_true,
      if_true, hr out]
    simp only [List.append_eq, Nat.zero_add]
    rw [to_sql_from_fail_pos inst render bad w e hbad rs hrs post 1 one_ne_zero
      (out.push_sql (render r))]
    simp [push_sql_push_sql, sepJoin, joinAll]

/-- C1: for every record type implementing the `Insertable` contract for a
table, the sql-type tag of the value-expression returned by `values()`
equals the fused sql type of the column-set returned by `columns()`; this
holds for every instance — including the slice and vector instances the
source defines — so it cannot fail at runtime. -/
theorem insertable_values_type_matches_columns (inst : Insertable σ ε U) :
    (∀ u : U, (inst.values u).sqlType = inst.columns.SqlType) ∧
    (∀ s : List U,
      ((sliceInsertable inst).values s).sqlType =
        (sliceInsertable inst).columns.SqlType) ∧
    (∀ v : Vec U,
      ((vecInsertable inst).values v).sqlType =
        (vecInsertable inst).columns.SqlType) :=
  ⟨inst.values_sql_type, fun _ => rfl, fun _ => rfl⟩

/-- C2: for a borrowed sequence of N records whose per-element renderings
append the texts `render r`, bulk `to_sql` appends exactly those N renderings
in sequence order, with the separator `", "` before every element except the
first and no leading or trailing separator (`sepJoin`); for N = 0 it appends
the empty string and for N = 1 exactly the one rendering, and it succeeds. -/
theorem insert_values_to_sql_renders_groups (inst : Insertable σ ε U)
    (render : U → String) (vs : List U)
    (h : ∀ r ∈ vs, Appends (inst.values r).to_sql (render r))
    (out : QueryBuilder) :
    InsertValues.to_sql inst { values := vs } out =
      (out.push_sql (sepJoin (vs.map render)), none) :=
  to_sql_from_zero inst render vs h out

/-- Witness for C2 at the concrete input `[1, 2]` starting from the empty
accumulator: the emitted text is exactly `1, 2`. -/
theorem insert_values_to_sql_renders_groups_witness :
    InsertValues.to_sql demoInsertable { values := [1, 2] } { sql := "" } =
      ({ sql := "1, 2" }, none) := by
  have h := insert_values_to_sql_renders_groups demoInsertable toString [1, 2]
    (by
      intro r hr
      simp only [List.mem_cons, List.not_mem_nil, or_false] at hr
      rcases hr with rfl | rfl <;> exact fun out => rfl)
    { sql := "" }
  rw [h]
  decide

/-- C3: if rendering some element's value-expression fails with `e` while
every earlier element renders successfully, bulk `to_sql` returns that very
failure, and the whole call result does not depend on the elements after the
failing one — iteration aborts, there is no retry, and the result is the
error, not a partial fragment. -/
theorem insert_values_to_sql_fail_fast (inst : Insertable σ ε U)
    (pre post : List U) (bad : U) (e : ε)
    (hpre : ∀ r ∈ pre, ∃ s, Appends (inst.values r).to_sql s)
    (hbad : ∀ out, ((inst.values bad).to_sql out).2 = some e)
    (out : QueryBuilder) :
    (InsertValues.to_sql inst { values := pre ++ bad :: post } out).2 = some e ∧
    InsertValues.to_sql inst { values := pre ++ bad :: post } out =
      InsertValues.to_sql inst { values := pre ++ [bad] } out :=
  have h := to_sql_from_fail inst bad e hbad pre hpre post 0 out
  ⟨h.2, h.1⟩

/-- Witness for C3 at the concrete input `[1, 0, 2]` (the record `0` fails
with `boom`): the error is returned and the result equals the run on
`[1, 0]`, i.e. the trailing record `2` is never rendered. -/
theorem insert_values_to_sql_fail_fast_witness :
    (InsertValues.to_sql demoInsertable { values := [1, 0, 2] } { sql := "" }).2 =
      some "boom" ∧
    InsertValues.to_sql demoInsertable { values := [1, 0, 2] } { sql := "" } =
      InsertValues.to_sql demoInsertable { values := [1, 0] } { sql := "" } :=
  insert_values_to_sql_fail_fast demoInsertable [1] [2] 0 "boom"
    (by
      intro r hr
      simp only [List.mem_singleton] at hr
      subst hr
      exact ⟨toString 1, fun out => rfl⟩)
    (fun out => rfl)
    { sql := "" }

/-- C4: for both bulk forms the source defines — the borrowed slice and the
borrowed vector — `columns()` equals the element type's `columns()`: one
column list for the whole multi-row statement, never repeated per row. -/
theorem bulk_columns_eq_element_columns (inst : Insertable σ ε U) :
    (sliceInsertable inst).columns = inst.columns ∧
    (vecInsertable inst).columns = inst.columns :=
  ⟨rfl, rfl⟩

/-- C5: inserting via a borrowed vector and via the borrowed slice of the
same elements produce equal results: the same `columns()` and the very same
bulk value-expression (hence an identical rendering function and identical
rendering on every accumulator). -/
theorem vec_slice_insertable_equiv (inst : Insertable σ ε U) (v : Vec U) :
    (vecInsertable inst).columns = (sliceInsertable inst).columns ∧
    (vecInsertable inst).values v = (sliceInsertable inst).values v.data :=
  ⟨rfl, rfl⟩

/-- C6: the bulk value-expression carries no sql-type tag of its own: the
`Expression` impl for `InsertValues` gives it exactly the element type's
fused column-set sql type. -/
theorem insert_values_sql_type_inherited (inst : Insertable σ ε U)
    (s : List U) :
    (InsertValues.expr inst { values := s }).sqlType = inst.columns.SqlType :=
  rfl

/-- C7: a single column identity is a valid column-set of size one: its
fused `SqlType` equals its own declared sql type, and its `names()` result
is exactly its own bare column name. -/
theorem single_column_column_set (c : Column σ) :
    c.insertableColumns.SqlType = c.sqlType ∧
    c.insertableColumns.names = c.name :=
  ⟨rfl, rfl⟩

/-- C8: rendering the same bulk value-expression twice — here from two
arbitrary starting accumulators — emits byte-identical output: both runs
append exactly the same text `sepJoin (vs.map render)`. -/
theorem insert_values_to_sql_deterministic (inst : Insertable σ ε U)
    (render : U → String) (vs : List U)
    (h : ∀ r ∈ vs, Appends (inst.values r).to_sql (render r))
    (out1 out2 : QueryBuilder) :
    (InsertValues.to_sql inst { values := vs } out1).1.sql =
      out1.sql ++ sepJoin (vs.map render) ∧
    (InsertValues.to_sql inst { values := vs } out2).1.sql =
      out2.sql ++ sepJoin (vs.map render) := by
  constructor
  · rw [InsertValues.to_sql, to_sql_from_zero inst render vs h out1]
    rfl
  · rw [InsertValues.to_sql, to_sql_from_zero inst render vs h out2]
    rfl

/-- Witness for C8 at the concrete input `[1, 2]` rendered twice, from the
accumulators `A` and `B`: both renderings append the identical bytes
`1, 2`. -/
theorem insert_values_to_sql_deterministic_witness :
    (InsertValues.to_sql demoInsertable { values := [1, 2] } { sql := "A" }).1.sql =
      "A1, 2" ∧
    (InsertValues.to_sql demoInsertable { values := [1, 2] } { sql := "B" }).1.sql =
      "B1, 2" := by
  have h := insert_values_to_sql_deterministic demoInsertable toString [1, 2]
    (by
      intro r hr
      simp only [List.mem_cons, List.not_mem_nil, or_false] at hr
      rcases hr with rfl | rfl <;> exact fun out => rfl)
    { sql := "A" } { sql := "B" }
  exact ⟨h.1.trans (by decide), h.2.trans (by decide)⟩

/-- C9: for a bulk value-expression over the empty sequence, `to_sql`
returns success and leaves the accumulator untouched, for every instance —
in particular also for instances (like `demoInsertable` restricted to `0`)
all of whose element renderings fail: no element is ever rendered. -/
theorem insert_values_to_sql_empty (inst : Insertable σ ε U)
    (out : QueryBuilder) :
    InsertValues.to_sql inst { values := [] } out = (out, none) :=
  rfl

/-- C10: bulk `to_sql` does not roll back the accumulator on failure: if the
element after `pre` fails with `e` having written `w`, the result pairs the
error with an accumulator holding everything `pre` emitted (separators
included) plus `w` — i.e. `sepJoin (pre.map render ++ [w])` appended to the
caller's accumulator. -/
theorem insert_values_to_sql_no_rollback (inst : Insertable σ ε U)
    (render : U → String) (pre post : List U) (bad : U) (w : String) (e : ε)
    (hpre : ∀ r ∈ pre, Appends (inst.values r).to_sql (render r))
    (hbad : AppendsFail (inst.values bad).to_sql w e)
    (out : QueryBuilder) :
    InsertValues.to_sql inst { values := pre ++ bad :: post } out =
      (out.push_sql (sepJoin (pre.map render ++ [w])), some e) :=
  to_sql_from_fail_zero inst render bad w e hbad pre hpre post out

/-- Witness for C10 at the concrete input `[1, 0, 2]` (the record `0` writes
`X` and then fails with `boom`): the accumulator retains `1, X` alongside
the returned error. -/
theorem insert_values_to_sql_no_rollback_witness :
    InsertValues.to_sql demoInsertable { values := [1, 0, 2] } { sql := "" } =
      ({ sql := "1, X" }, some "boom") := by
  have h := insert_values_to_sql_no_rollback demoInsertable toString [1] [2] 0
    "X" "boom"
    (by
      intro r hr
      simp only [List.mem_singleton] at hr
      subst hr
      exact fun out => rfl)
    (fun out => rfl)
    { sql := "" }
  exact h.trans (by decide)

end Persistable
